import Mathlib

/-!
Shallow embedding of the "Raven Transition" canvas engine
(`src/unnamed/part_001`).  Numeric code is modelled over `ℚ`; the host
platform's trigonometric primitives (`Math.sin`, `Math.cos`) are passed in
as function parameters so that every definition stays executable.
-/

/-- JS `clamp01`: `Math.max(0, Math.min(1, value))`. -/
def clamp01 (value : ℚ) : ℚ := max 0 (min 1 value)

/-- JS `easeInOutCubic`: `t < 0.5 ? 4*t*t*t : 1 - Math.pow(-2*t+2, 3)/2`. -/
def easeInOutCubic (t : ℚ) : ℚ :=
  if t < 0.5 then 4 * t * t * t else 1 - (-2 * t + 2) ^ 3 / 2

/-- JS `easeOutQuart`: `1 - Math.pow(1 - t, 4)`. -/
def easeOutQuart (t : ℚ) : ℚ := 1 - (1 - t) ^ 4

/-- The 25 authored normalized control points (`RAVEN_POINTS`). -/
def RAVEN_POINTS : List (ℚ × ℚ) :=
  [(-0.28, 0.52), (-0.1, 0.42), (0.06, 0.33), (0.15, 0.24), (0.28, 0.12),
   (0.38, 0.03), (0.5, -0.08), (0.62, -0.18), (0.75, -0.23), (0.87, -0.18),
   (1.0, -0.08), (1.07, 0.02), (1.16, 0.08), (1.22, 0.18), (1.26, 0.28),
   (1.24, 0.38), (1.16, 0.48), (1.02, 0.58), (0.9, 0.66), (0.72, 0.72),
   (0.54, 0.7), (0.36, 0.68), (0.18, 0.66), (0.04, 0.62), (-0.12, 0.58)]

/-- Result record of `computeRavenGeometry`. -/
structure Geometry where
  points : List (ℚ × ℚ)
  offsetX : ℚ
  offsetY : ℚ
  shapeWidth : ℚ
  shapeHeight : ℚ
  eased : ℚ
  deriving DecidableEq

/-- The per-point transform applied inside `computeRavenGeometry`:
`scaledX = offsetX + shapeWidth*(nx+0.15) + centeredY*shapeHeight*skew`,
`scaledY = offsetY + shapeHeight*centeredY*(1 - lift*0.35)` with
`centeredY = ny - 0.5`. -/
def ravenPointTransform (offsetX offsetY shapeWidth shapeHeight skew lift : ℚ)
    (p : ℚ × ℚ) : ℚ × ℚ :=
  let centeredY := p.2 - 0.5
  (offsetX + shapeWidth * (p.1 + 0.15) + centeredY * shapeHeight * skew,
   offsetY + shapeHeight * centeredY * (1 - lift * 0.35))

/-- Source `computeRavenGeometry(width, height, progress)`.  The host primitive
`Math.sin(eased * Math.PI)` is abstracted as the parameter `sinpi`, with
`sinpi x` standing for `sin(x·π)`. -/
def computeRavenGeometry (sinpi : ℚ → ℚ) (width height progress : ℚ) : Geometry :=
  let eased := easeInOutCubic progress
  let base := min width height
  let shapeWidth := base * 1.32
  let shapeHeight := base * 0.74
  let travel := width + shapeWidth * 0.85
  let offsetX := eased * travel - shapeWidth * 0.75
  let offsetY := height * 0.52 - sinpi eased * base * 0.08
  let skew := (eased - 0.5) * 0.55
  let lift := sinpi eased * 0.18
  { points := RAVEN_POINTS.map
      (ravenPointTransform offsetX offsetY shapeWidth shapeHeight skew lift)
    offsetX := offsetX
    offsetY := offsetY
    shapeWidth := shapeWidth
    shapeHeight := shapeHeight
    eased := eased }

/-- A feather particle seed (`useFeatherSeeds` entry). -/
structure FeatherSeed where
  offsetY : ℚ
  sizeScale : ℚ
  delay : ℚ
  sway : ℚ
  deriving DecidableEq

/-- The per-index seed construction inside `useFeatherSeeds`.  The host
primitives `Math.sin` and `Math.cos` are abstracted as `sinf` and `cosf`. -/
def mkFeatherSeed (sinf cosf : ℚ → ℚ) (idx : ℕ) : FeatherSeed :=
  let seed : ℚ := ((idx : ℚ) + 1) * 37
  let base := (sinf (seed * 1.3) + 1) / 2
  let spread := (cosf (seed * 0.77) + 1) / 2
  { offsetY := spread * 0.9 - 0.45
    sizeScale := 0.55 + base * 0.65
    delay := ((idx % 6 : ℕ) : ℚ) * 0.05
    sway := sinf (seed * 0.61) * 0.9 }

/-- Source `useFeatherSeeds`: `Array.from({length: 18}, (_, idx) => ...)`. -/
def mkFeatherSeeds (sinf cosf : ℚ → ℚ) : List FeatherSeed :=
  (List.range 18).map (mkFeatherSeed sinf cosf)

/-- The drawing parameters of one feather emitted by `drawFeathers`:
translation, rotation angle and global alpha. -/
structure FeatherDraw where
  size : ℚ
  centerX : ℚ
  centerY : ℚ
  rotation : ℚ
  alpha : ℚ
  deriving DecidableEq

/-- The per-seed body of the `featherSeeds.forEach` loop in `drawFeathers`:
`none` when the feather is skipped (`local <= 0` or `fade <= 0.01`),
otherwise the parameters of the drawn feather.  The code sets
`globalAlpha = fade * 0.5` and `rotate(-0.35 + seed.sway * (1 - fade))`. -/
def featherRender (geometry : Geometry) (w h progress : ℚ)
    (seed : FeatherSeed) : Option FeatherDraw :=
  let baseSize := min w h * 0.07
  let baseX := geometry.offsetX + geometry.shapeWidth * 0.28
  let loc := (progress - seed.delay) / 0.75
  if loc ≤ 0 then none
  else
    let clamped := clamp01 loc
    let fade := 1 - clamped
    if fade ≤ 0.01 then none
    else some
      { size := baseSize * seed.sizeScale
        centerX := baseX - clamped * w * 0.32
        centerY := h * 0.5 + seed.offsetY * h * 0.32
        rotation := -0.35 + seed.sway * (1 - fade)
        alpha := fade * 0.5 }

/-- Loaded images are identified by their source string. -/
abbrev Img := String

/-- Abstract canvas commands emitted by the draw routines. -/
inductive Cmd where
  | clearRect : ℚ → ℚ → Cmd
  | placeholderGradient : ℚ → ℚ → Cmd
  | coverImage : Img → ℚ → ℚ → Cmd
  | clipCoverImage : Img → List (ℚ × ℚ) → ℚ → ℚ → Cmd
  | silhouetteFill : List (ℚ × ℚ) → ℚ → Cmd
  | feather : FeatherDraw → Cmd
  | sweep : ℚ → ℚ → ℚ → Cmd
  deriving DecidableEq

/-- Source `drawFeathers`: render every non-skipped feather, then the additive
light-sweep band with stop opacity `0.28 * (1 - easeOutQuart progress)`. -/
def drawFeathers (seeds : List FeatherSeed) (progress w h : ℚ)
    (geometry : Geometry) : List Cmd :=
  let eased := easeOutQuart progress
  let sweepWidth := geometry.shapeWidth * 0.35
  let sweepX := geometry.offsetX + geometry.shapeWidth * 0.42
  (seeds.filterMap (featherRender geometry w h progress)).map Cmd.feather ++
    [Cmd.sweep sweepX sweepWidth (0.28 * (1 - eased))]

/-- Source `drawStatic`: no-op without a context or with a falsy (zero) width or
height; otherwise clear, then either the placeholder gradient (absent
image) or a cover-draw of the active image. -/
def drawStatic (hasCtx : Bool) (w h : ℚ) (images : List (Option Img))
    (activeIndex : ℕ) : List Cmd :=
  if hasCtx = false ∨ w = 0 ∨ h = 0 then []
  else
    match images.getD activeIndex none with
    | none => [Cmd.clearRect w h, Cmd.placeholderGradient w h]
    | some img => [Cmd.clearRect w h, Cmd.coverImage img w h]

/-- Source `TransitionState` (`from`/`to` in the source; `from` is reserved in
Lean, so the spec's field names are used). -/
structure TransitionState where
  fromIndex : ℕ
  toIndex : ℕ
  deriving DecidableEq

/-- Source `drawFrame(progress)`: no-op without a context, with a zero viewport
dimension, or when either transition image is absent; otherwise the layer
sequence clear → cover(from) → clipped cover(to) → silhouette fill with
alpha `0.75 + 0.15*(1-progress)` → feather overlay. -/
def drawFrame (sinpi : ℚ → ℚ) (hasCtx : Bool) (w h : ℚ)
    (images : List (Option Img)) (transition : TransitionState)
    (progress : ℚ) (seeds : List FeatherSeed) : List Cmd :=
  if hasCtx = false ∨ w = 0 ∨ h = 0 then []
  else
    match images.getD transition.fromIndex none,
          images.getD transition.toIndex none with
    | some fromImg, some toImg =>
      let geometry := computeRavenGeometry sinpi w h progress
      [Cmd.clearRect w h, Cmd.coverImage fromImg w h,
       Cmd.clipCoverImage toImg geometry.points w h,
       Cmd.silhouetteFill geometry.points (0.75 + 0.15 * (1 - progress))] ++
        drawFeathers seeds progress w h geometry
    | _, _ => []

/-- The scheduler state of `useTransitionCanvas`: `activeIndex`,
`isAnimatingRef`, `transitionRef` and `startTimestampRef`. -/
structure SchedState where
  activeIndex : ℕ
  isAnimating : Bool
  transition : TransitionState
  startTimestamp : ℚ
  deriving DecidableEq

/-- Source `startTransition`: guard on `isAnimatingRef.current`, compute
`nextIndex`, guard on both images, then record the transition and enter
the running state with a reset timestamp. -/
def startTransition (s : SchedState) (images : List (Option Img)) : SchedState :=
  if s.isAnimating then s
  else
    let nextIndex := if s.activeIndex = 0 then 1 else 0
    if images.getD s.activeIndex none = none ∨ images.getD nextIndex none = none
    then s
    else { s with transition := ⟨s.activeIndex, nextIndex⟩
                  isAnimating := true
                  startTimestamp := 0 }

/-- The state effect of one `animate` tick given the elapsed time:
`progress = clamp01(elapsed / duration)`; below 1 the state is untouched
(the frame is only drawn), at 1 the run completes: `isAnimating := false`,
`activeIndex := transition.to`, timestamp reset. -/
def animate (s : SchedState) (elapsed duration : ℚ) : SchedState :=
  let progress := clamp01 (elapsed / duration)
  if progress < 1 then s
  else { s with isAnimating := false
                activeIndex := s.transition.toIndex
                startTimestamp := 0 }

/-- State of the `useLoadedImages` hook: the `images` array plus every
`onload` handler ever registered (the hook never unregisters one). -/
structure SlotsState where
  images : List (Option Img)
  pending : List (ℕ × String)
  deriving DecidableEq

/-- Events driving `useLoadedImages`: an effect run over a new `sources`
array, or the browser firing one registered `onload` handler. -/
inductive LoadEvent where
  | setSources : List String → LoadEvent
  | complete : ℕ → String → LoadEvent
  deriving DecidableEq

/-- One step of `useLoadedImages`.  An effect run iterates `sources`,
nulling each slot and registering a fresh handler; a completion of a
registered handler unconditionally commits its image to its slot — the
code has no generation counter and never removes old handlers. -/
def loadStep (s : SlotsState) : LoadEvent → SlotsState
  | LoadEvent.setSources srcs =>
      srcs.enum.foldl
        (fun st p =>
          { images := st.images.set p.1 none
            pending := st.pending ++ [(p.1, p.2)] })
        s
  | LoadEvent.complete slot src =>
      if (slot, src) ∈ s.pending
      then { s with images := s.images.set slot (some src) }
      else s

/-- Run a sequence of load events from a state. -/
def loadRun (s : SlotsState) (evs : List LoadEvent) : SlotsState :=
  evs.foldl loadStep s

/-- Initial `useState<LoadedImages>([null, null])` with no handlers yet. -/
def initialSlots : SlotsState := ⟨[none, none], []⟩

theorem easeInOutCubic_mono {s t : ℚ} (hs : 0 ≤ s) (hst : s ≤ t) (ht : t ≤ 1) :
    easeInOutCubic s ≤ easeInOutCubic t := by
  unfold easeInOutCubic
  by_cases hsc : s < 0.5 <;> by_cases htc : t < 0.5 <;>
    simp only [hsc, htc, if_true, if_false, if_pos, if_neg]
  · have h3 : s ^ 3 ≤ t ^ 3 := pow_le_pow_left₀ hs hst 3
    linarith [h3]
  · have hs12 : s ≤ 1/2 := by
      have := hsc
      rw [show (0.5:ℚ) = 1/2 by norm_num] at this
      linarith
    have hs3 : s ^ 3 ≤ (1/2 : ℚ) ^ 3 := pow_le_pow_left₀ hs hs12 3
    have ht2 : (0:ℚ) ≤ -2 * t + 2 := by linarith
    have ht12 : (1:ℚ)/2 ≤ t := by
      have := htc
      rw [show (0.5:ℚ) = 1/2 by norm_num] at this
      linarith
    have ht1 : -2 * t + 2 ≤ 1 := by linarith
    have h3 : (-2 * t + 2) ^ 3 ≤ (1:ℚ) ^ 3 := pow_le_pow_left₀ ht2 ht1 3
    have hs3n : s ^ 3 ≤ 1/8 := by linarith [hs3]
    nlinarith [h3, hs3n]
  · exact absurd (lt_of_le_of_lt hst htc) hsc
  · have hs2 : (0:ℚ) ≤ -2 * t + 2 := by linarith
    have hts : -2 * t + 2 ≤ -2 * s + 2 := by linarith
    have h3 : (-2 * t + 2) ^ 3 ≤ (-2 * s + 2) ^ 3 := pow_le_pow_left₀ hs2 hts 3
    linarith [h3]

theorem easeOutQuart_mono {s t : ℚ} (hst : s ≤ t) (ht : t ≤ 1) :
    easeOutQuart s ≤ easeOutQuart t := by
  unfold easeOutQuart
  have h1 : (0:ℚ) ≤ 1 - t := by linarith
  have h2 : 1 - t ≤ 1 - s := by linarith
  have h4 : (1 - t) ^ 4 ≤ (1 - s) ^ 4 := pow_le_pow_left₀ h1 h2 4
  linarith [h4]

/-- C5: both easing functions fix 0 and 1 and are monotone non-decreasing
on `[0,1]`. -/
theorem easings_fixpoints_and_monotone :
    easeInOutCubic 0 = 0 ∧ easeInOutCubic 1 = 1 ∧
    easeOutQuart 0 = 0 ∧ easeOutQuart 1 = 1 ∧
    ∀ s t : ℚ, 0 ≤ s → s ≤ t → t ≤ 1 →
      easeInOutCubic s ≤ easeInOutCubic t ∧ easeOutQuart s ≤ easeOutQuart t := by
  refine ⟨by norm_num [easeInOutCubic], by norm_num [easeInOutCubic],
    by norm_num [easeOutQuart], by norm_num [easeOutQuart], ?_⟩
  intro s t hs hst ht
  exact ⟨easeInOutCubic_mono hs hst ht, easeOutQuart_mono hst ht⟩

/-- Witness for C5 at `s = 0`, `t = 1/2`. -/
theorem easings_fixpoints_and_monotone_witness :
    easeInOutCubic 0 ≤ easeInOutCubic (1/2) ∧ easeOutQuart 0 ≤ easeOutQuart (1/2) :=
  easings_fixpoints_and_monotone.2.2.2.2 0 (1/2) (by norm_num) (by norm_num) (by norm_num)

/-- C6: the horizontal travel between progress 0 and progress 1 equals
`w + 0.85·shapeWidth` with `shapeWidth = 1.32·min(w,h)`, for every
viewport and every sine primitive. -/
theorem geometry_travel (sinpi : ℚ → ℚ) (w h : ℚ) :
    (computeRavenGeometry sinpi w h 1).offsetX -
      (computeRavenGeometry sinpi w h 0).offsetX =
    w + 0.85 * (1.32 * min w h) := by
  have h1 : easeInOutCubic 1 = 1 := by norm_num [easeInOutCubic]
  have h0 : easeInOutCubic 0 = 0 := by norm_num [easeInOutCubic]
  simp only [computeRavenGeometry, h0, h1]
  ring

/-- C7: the geometry polygon always has exactly 25 points, the i-th point
being the transform of the i-th authored control point, for every
progress and viewport. -/
theorem geometry_points_count (sinpi : ℚ → ℚ) (w h progress : ℚ) :
    (computeRavenGeometry sinpi w h progress).points.length = 25 ∧
    RAVEN_POINTS.length = 25 ∧
    ∀ i : ℕ,
      (computeRavenGeometry sinpi w h progress).points.get? i =
        (RAVEN_POINTS.get? i).map
          (ravenPointTransform
            (computeRavenGeometry sinpi w h progress).offsetX
            (computeRavenGeometry sinpi w h progress).offsetY
            (computeRavenGeometry sinpi w h progress).shapeWidth
            (computeRavenGeometry sinpi w h progress).shapeHeight
            (((computeRavenGeometry sinpi w h progress).eased - 0.5) * 0.55)
            (sinpi (computeRavenGeometry sinpi w h progress).eased * 0.18)) := by
  refine ⟨?_, by decide, ?_⟩
  · simp [computeRavenGeometry]
    decide
  · intro i
    simp only [computeRavenGeometry, List.get?_eq_getElem?, List.getElem?_map]

/-- C8: the particle seed generator yields exactly 18 entries, entry `i`
derived from seed `(i+1)·37`, with `offsetY ∈ [−0.45, 0.45]`,
`sizeScale ∈ [0.55, 1.2]`, `delay = (i mod 6)·0.05`; re-invocation yields
the identical sequence.  The host `Math.sin`/`Math.cos` are abstracted as
any functions into `[−1, 1]`. -/
theorem featherSeeds_spec (sinf cosf : ℚ → ℚ)
    (hs : ∀ x, -1 ≤ sinf x ∧ sinf x ≤ 1)
    (hc : ∀ x, -1 ≤ cosf x ∧ cosf x ≤ 1) :
    (mkFeatherSeeds sinf cosf).length = 18 ∧
    mkFeatherSeeds sinf cosf = mkFeatherSeeds sinf cosf ∧
    ∀ i : ℕ, i < 18 →
      (mkFeatherSeeds sinf cosf).get? i = some (mkFeatherSeed sinf cosf i) ∧
      -0.45 ≤ (mkFeatherSeed sinf cosf i).offsetY ∧
      (mkFeatherSeed sinf cosf i).offsetY ≤ 0.45 ∧
      0.55 ≤ (mkFeatherSeed sinf cosf i).sizeScale ∧
      (mkFeatherSeed sinf cosf i).sizeScale ≤ 1.2 ∧
      (mkFeatherSeed sinf cosf i).delay = ((i % 6 : ℕ) : ℚ) * 0.05 := by
  refine ⟨by simp [mkFeatherSeeds], rfl, ?_⟩
  intro i hi
  obtain ⟨hs1, hs2⟩ := hs ((((i : ℚ) + 1) * 37) * 1.3)
  obtain ⟨hc1, hc2⟩ := hc ((((i : ℚ) + 1) * 37) * 0.77)
  refine ⟨?_, ?_, ?_, ?_, ?_, rfl⟩
  · have hr : (List.range 18)[i]? = some i := List.getElem?_range hi
    simp [mkFeatherSeeds, List.get?_eq_getElem?, List.getElem?_map, hr]
  · simp only [mkFeatherSeed]
    linarith
  · simp only [mkFeatherSeed]
    linarith
  · simp only [mkFeatherSeed]
    linarith
  · simp only [mkFeatherSeed]
    linarith

/-- Witness for C8 with the constant-zero trigonometric primitives. -/
theorem featherSeeds_spec_witness :
    (mkFeatherSeeds (fun _ => 0) (fun _ => 0)).length = 18 ∧
    (mkFeatherSeed (fun _ => 0) (fun _ => 0) 7).delay = ((7 % 6 : ℕ) : ℚ) * 0.05 :=
  ⟨(featherSeeds_spec (fun _ => 0) (fun _ => 0)
      (fun _ => by norm_num) (fun _ => by norm_num)).1,
   ((featherSeeds_spec (fun _ => 0) (fun _ => 0)
      (fun _ => by norm_num) (fun _ => by norm_num)).2.2 7 (by norm_num)).2.2.2.2.2⟩

theorem clamp01_of_one_le {x : ℚ} (hx : 1 ≤ x) : clamp01 x = 1 := by
  unfold clamp01
  rw [min_eq_left hx, max_eq_right (by norm_num : (0:ℚ) ≤ 1)]

theorem animate_complete (s : SchedState) {e d : ℚ} (hd : 0 < d) (he : d ≤ e) :
    animate s e d =
      { s with isAnimating := false
               activeIndex := s.transition.toIndex
               startTimestamp := 0 } := by
  have hone : clamp01 (e / d) = 1 := clamp01_of_one_le ((one_le_div hd).mpr he)
  simp [animate, hone]

theorem startTransition_starts (s : SchedState) (images : List (Option Img))
    (hIdle : s.isAnimating = false)
    (hfrom : images.getD s.activeIndex none ≠ none)
    (hto : images.getD (if s.activeIndex = 0 then 1 else 0) none ≠ none) :
    startTransition s images =
      { s with transition := ⟨s.activeIndex, if s.activeIndex = 0 then 1 else 0⟩
               isAnimating := true
               startTimestamp := 0 } := by
  unfold startTransition
  rw [hIdle]
  simp only [Bool.false_eq_true, if_false]
  rw [if_neg (not_or.mpr ⟨hfrom, hto⟩)]

theorem startTransition_proj (s : SchedState) (images : List (Option Img))
    (hIdle : s.isAnimating = false)
    (hfrom : images.getD s.activeIndex none ≠ none)
    (hto : images.getD (if s.activeIndex = 0 then 1 else 0) none ≠ none) :
    (startTransition s images).activeIndex = s.activeIndex ∧
    (startTransition s images).isAnimating = true ∧
    (startTransition s images).transition.fromIndex = s.activeIndex ∧
    (startTransition s images).transition.toIndex =
      (if s.activeIndex = 0 then 1 else 0) := by
  rw [startTransition_starts s images hIdle hfrom hto]
  exact ⟨rfl, rfl, rfl, rfl⟩

theorem animate_proj (s : SchedState) {e d : ℚ} (hd : 0 < d) (he : d ≤ e) :
    (animate s e d).activeIndex = s.transition.toIndex ∧
    (animate s e d).isAnimating = false ∧
    (animate s e d).transition = s.transition := by
  rw [animate_complete s hd he]
  exact ⟨rfl, rfl, rfl⟩

/-- C3: a start request is a no-op while running or while either required
slot is absent, and moves the scheduler to running exactly when idle with
both slots resolved. -/
theorem startTransition_guards (s : SchedState) (images : List (Option Img)) :
    (s.isAnimating = true → startTransition s images = s) ∧
    (images.getD s.activeIndex none = none ∨
        images.getD (if s.activeIndex = 0 then 1 else 0) none = none →
      startTransition s images = s) ∧
    (s.isAnimating = false →
      images.getD s.activeIndex none ≠ none →
      images.getD (if s.activeIndex = 0 then 1 else 0) none ≠ none →
      (startTransition s images).isAnimating = true) := by
  refine ⟨fun ha => by simp [startTransition, ha], fun habs => ?_, fun h1 h2 h3 => ?_⟩
  · unfold startTransition
    by_cases ha : s.isAnimating
    · rw [ha]
      simp
    · have ha2 : s.isAnimating = false := by
        cases hb : s.isAnimating
        · rfl
        · exact absurd hb ha
      rw [ha2]
      simp only [Bool.false_eq_true, if_false]
      rw [if_pos habs]
  · rw [startTransition_starts s images h1 h2 h3]

/-- Witness for C3: a start request while running changes nothing. -/
theorem startTransition_guards_witness :
    startTransition ⟨0, true, ⟨0, 1⟩, 0⟩ [some "a", some "b"] = ⟨0, true, ⟨0, 1⟩, 0⟩ :=
  (startTransition_guards ⟨0, true, ⟨0, 1⟩, 0⟩ [some "a", some "b"]).1 rfl

/-- C4: a started run records `fromIndex = activeIndex`,
`toIndex = 1 - activeIndex`, distinct and both in {0,1}; ticks never
mutate the transition; completion commits `activeIndex = toIndex`; and a
second completed run returns `activeIndex` to its original value
(alternation 0→1→0). -/
theorem run_alternates_activeIndex (s : SchedState) (images : List (Option Img))
    (hIdle : s.isAnimating = false)
    (hA : s.activeIndex = 0 ∨ s.activeIndex = 1)
    (h0 : images.getD 0 none ≠ none)
    (h1 : images.getD 1 none ≠ none)
    (e d e2 d2 e3 d3 : ℚ)
    (hd : 0 < d) (he : d ≤ e) (hd2 : 0 < d2) (he2 : d2 ≤ e2) :
    (startTransition s images).transition.fromIndex = s.activeIndex ∧
    (startTransition s images).transition.toIndex =
      (if s.activeIndex = 0 then 1 else 0) ∧
    (startTransition s images).transition.fromIndex ≠
      (startTransition s images).transition.toIndex ∧
    ((startTransition s images).transition.fromIndex = 0 ∨
      (startTransition s images).transition.fromIndex = 1) ∧
    ((startTransition s images).transition.toIndex = 0 ∨
      (startTransition s images).transition.toIndex = 1) ∧
    (animate (startTransition s images) e3 d3).transition =
      (startTransition s images).transition ∧
    (animate (startTransition s images) e d).activeIndex =
      (startTransition s images).transition.toIndex ∧
    (animate (startTransition (animate (startTransition s images) e d) images)
        e2 d2).activeIndex = s.activeIndex := by
  have htrans : ∀ (t : SchedState) (a b : ℚ),
      (animate t a b).transition = t.transition := by
    intro t a b
    simp only [animate]
    split <;> rfl
  rcases hA with h | h
  · have hfrom : images.getD s.activeIndex none ≠ none := by rw [h]; exact h0
    have hto : images.getD (if s.activeIndex = 0 then 1 else 0) none ≠ none := by
      rw [h]; simpa using h1
    obtain ⟨p1a, p1b, p1c, p1d⟩ := startTransition_proj s images hIdle hfrom hto
    have p1c0 : (startTransition s images).transition.fromIndex = 0 := by
      rw [p1c, h]
    have p1d1 : (startTransition s images).transition.toIndex = 1 := by
      rw [p1d, h]
      norm_num
    obtain ⟨p2a, p2b, p2c⟩ := animate_proj (startTransition s images) hd he
    have h2act : (animate (startTransition s images) e d).activeIndex = 1 := by
      rw [p2a, p1d1]
    have hfrom2 : images.getD
        (animate (startTransition s images) e d).activeIndex none ≠ none := by
      rw [h2act]; exact h1
    have hto2 : images.getD
        (if (animate (startTransition s images) e d).activeIndex = 0 then 1 else 0)
        none ≠ none := by
      rw [h2act]; simpa using h0
    obtain ⟨p3a, p3b, p3c, p3d⟩ :=
      startTransition_proj (animate (startTransition s images) e d) images
        p2b hfrom2 hto2
    have p3d0 : (startTransition (animate (startTransition s images) e d)
        images).transition.toIndex = 0 := by
      rw [p3d, h2act]
      norm_num
    obtain ⟨p4a, p4b, p4c⟩ :=
      animate_proj (startTransition (animate (startTransition s images) e d) images)
        hd2 he2
    refine ⟨p1c, p1d, ?_, ?_, ?_, htrans _ _ _, p2a, ?_⟩
    · rw [p1c0, p1d1]
      norm_num
    · rw [p1c0]
      exact Or.inl rfl
    · rw [p1d1]
      exact Or.inr rfl
    · rw [p4a, p3d0, h]
  · have hfrom : images.getD s.activeIndex none ≠ none := by rw [h]; exact h1
    have hto : images.getD (if s.activeIndex = 0 then 1 else 0) none ≠ none := by
      rw [h]; simpa using h0
    obtain ⟨p1a, p1b, p1c, p1d⟩ := startTransition_proj s images hIdle hfrom hto
    have p1c1 : (startTransition s images).transition.fromIndex = 1 := by
      rw [p1c, h]
    have p1d0 : (startTransition s images).transition.toIndex = 0 := by
      rw [p1d, h]
      norm_num
    obtain ⟨p2a, p2b, p2c⟩ := animate_proj (startTransition s images) hd he
    have h2act : (animate (startTransition s images) e d).activeIndex = 0 := by
      rw [p2a, p1d0]
    have hfrom2 : images.getD
        (animate (startTransition s images) e d).activeIndex none ≠ none := by
      rw [h2act]; exact h0
    have hto2 : images.getD
        (if (animate (startTransition s images) e d).activeIndex = 0 then 1 else 0)
        none ≠ none := by
      rw [h2act]; simpa using h1
    obtain ⟨p3a, p3b, p3c, p3d⟩ :=
      startTransition_proj (animate (startTransition s images) e d) images
        p2b hfrom2 hto2
    have p3d1 : (startTransition (animate (startTransition s images) e d)
        images).transition.toIndex = 1 := by
      rw [p3d, h2act]
      norm_num
    obtain ⟨p4a, p4b, p4c⟩ :=
      animate_proj (startTransition (animate (startTransition s images) e d) images)
        hd2 he2
    refine ⟨p1c, p1d, ?_, ?_, ?_, htrans _ _ _, p2a, ?_⟩
    · rw [p1c1, p1d0]
      norm_num
    · rw [p1c1]
      exact Or.inr rfl
    · rw [p1d0]
      exact Or.inl rfl
    · rw [p4a, p3d1, h]

/-- Witness for C4: from `activeIndex = 0`, two completed runs alternate
the active index back to 0. -/
theorem run_alternates_activeIndex_witness :
    (animate (startTransition
        (animate (startTransition ⟨0, false, ⟨0, 1⟩, 0⟩ [some "a", some "b"]) 1 1)
        [some "a", some "b"]) 1 1).activeIndex = 0 :=
  (run_alternates_activeIndex ⟨0, false, ⟨0, 1⟩, 0⟩ [some "a", some "b"] rfl
    (Or.inl rfl) (by decide) (by decide) 1 1 1 1 1 1
    (by norm_num) (by norm_num) (by norm_num) (by norm_num)).2.2.2.2.2.2.2

/-- C9: with a zero-width or zero-height viewport both the static draw and
the transition-frame draw emit no command, for every slot contents, every
progress and every transition. -/
theorem degenerate_viewport_noop (hasCtx : Bool) (w h : ℚ)
    (images : List (Option Img)) (activeIndex : ℕ) (sinpi : ℚ → ℚ)
    (seeds : List FeatherSeed) (hwh : w = 0 ∨ h = 0) :
    drawStatic hasCtx w h images activeIndex = [] ∧
    ∀ (transition : TransitionState) (progress : ℚ),
      drawFrame sinpi hasCtx w h images transition progress seeds = [] := by
  constructor
  · unfold drawStatic
    rw [if_pos (Or.inr hwh)]
  · intro t p
    unfold drawFrame
    rw [if_pos (Or.inr hwh)]

/-- Witness for C9 at width 0. -/
theorem degenerate_viewport_noop_witness :
    drawStatic true 0 100 [some "a", some "b"] 0 = [] ∧
    drawFrame (fun _ => 0) true 0 100 [some "a", some "b"] ⟨0, 1⟩ (1/2) [] = [] :=
  ⟨(degenerate_viewport_noop true 0 100 [some "a", some "b"] 0 (fun _ => 0) []
      (Or.inl rfl)).1,
   (degenerate_viewport_noop true 0 100 [some "a", some "b"] 0 (fun _ => 0) []
      (Or.inl rfl)).2 ⟨0, 1⟩ (1/2)⟩

/-- C10: when either transition slot image is absent, the frame draw
returns without emitting any command — no clear and no placeholder — for
every progress. -/
theorem absent_slot_frame_noop (sinpi : ℚ → ℚ) (hasCtx : Bool) (w h : ℚ)
    (images : List (Option Img)) (transition : TransitionState)
    (seeds : List FeatherSeed)
    (habs : images.getD transition.fromIndex none = none ∨
            images.getD transition.toIndex none = none) :
    ∀ progress : ℚ,
      drawFrame sinpi hasCtx w h images transition progress seeds = [] := by
  intro p
  unfold drawFrame
  split
  · rfl
  · split
    · rename_i fromImg toImg h1 h2
      rcases habs with hx | hx
      · rw [hx] at h1
        exact absurd h1 (by simp)
      · rw [hx] at h2
        exact absurd h2 (by simp)
    · rfl

/-- Witness for C10: an absent to-slot suppresses the frame. -/
theorem absent_slot_frame_noop_witness :
    drawFrame (fun _ => 0) true 100 100 [some "a", none] ⟨0, 1⟩ (1/2) [] = [] :=
  absent_slot_frame_noop (fun _ => 0) true 100 100 [some "a", none] ⟨0, 1⟩ []
    (Or.inr rfl) (1/2)

/-- C1: `useLoadedImages` does not supersede outstanding loads.  After
slot 0's source is replaced from "a" to "b" before either load resolves,
the late completion of "a" is still committed to slot 0 — the claimed
invalidation does not happen in the code. -/
theorem stale_load_commits :
    (loadRun initialSlots
      [LoadEvent.setSources ["a", "x"], LoadEvent.setSources ["b", "x"],
       LoadEvent.complete 0 "a"]).images.getD 0 none = some "a" := by
  rfl

/-- C2 counterexample: the claim "rotation = base + sway·fade" fails; the
code rotates by `base + sway·(1 − fade)`.  At `progress = 3/16`,
`delay = 0`, `sway = 0.9` the drawn feather has rotation `−1/8`, while the
claim demands `0.325`. -/
theorem feather_rotation_claim_false :
    ¬ (∀ (geometry : Geometry) (w h progress : ℚ) (seed : FeatherSeed)
          (d : FeatherDraw),
        featherRender geometry w h progress seed = some d →
        d.rotation = -0.35 + seed.sway *
            (1 - clamp01 ((progress - seed.delay) / 0.75)) ∧
        d.alpha = 0.5 * (1 - clamp01 ((progress - seed.delay) / 0.75))) := by
  intro hAll
  have h := hAll ⟨[], 0, 0, 0, 0, 0⟩ 100 100 (3/16) ⟨0, 1, 0, 0.9⟩
      ⟨7, -8, 50, -1/8, 3/8⟩
      (by norm_num [featherRender, clamp01, min_def, max_def, FeatherDraw.mk.injEq])
  have hrot := h.1
  norm_num [clamp01, min_def, max_def] at hrot

/-- C2 amended: every drawn feather is rotated by the base angle plus
`seed.sway·(1 − fade)` (the clamped local progress), and filled with
opacity `0.5·fade`, where `fade = 1 − clamp01((progress − delay)/0.75)`. -/
theorem feather_rotation_alpha (geometry : Geometry) (w h progress : ℚ)
    (seed : FeatherSeed) (d : FeatherDraw)
    (hdraw : featherRender geometry w h progress seed = some d) :
    d.rotation = -0.35 + seed.sway * clamp01 ((progress - seed.delay) / 0.75) ∧
    d.alpha = 0.5 * (1 - clamp01 ((progress - seed.delay) / 0.75)) := by
  simp only [featherRender] at hdraw
  split_ifs at hdraw with h1 h2
  injection hdraw with hdraw
  subst hdraw
  constructor
  · show -0.35 + seed.sway * (1 - (1 - clamp01 ((progress - seed.delay) / 0.75))) =
      -0.35 + seed.sway * clamp01 ((progress - seed.delay) / 0.75)
    ring
  · show (1 - clamp01 ((progress - seed.delay) / 0.75)) * 0.5 =
      0.5 * (1 - clamp01 ((progress - seed.delay) / 0.75))
    ring

/-- Witness for the amended C2 at `progress = 3/16`, `sway = 0.9`. -/
theorem feather_rotation_alpha_witness :
    (⟨7, -8, 50, -1/8, 3/8⟩ : FeatherDraw).rotation =
      -0.35 + (0.9 : ℚ) * clamp01 (((3/16 : ℚ) - 0) / 0.75) ∧
    (⟨7, -8, 50, -1/8, 3/8⟩ : FeatherDraw).alpha =
      0.5 * (1 - clamp01 (((3/16 : ℚ) - 0) / 0.75)) :=
  feather_rotation_alpha ⟨[], 0, 0, 0, 0, 0⟩ 100 100 (3/16) ⟨0, 1, 0, 0.9⟩
    ⟨7, -8, 50, -1/8, 3/8⟩
    (by norm_num [featherRender, clamp01, min_def, max_def, FeatherDraw.mk.injEq])
